import Mathlib

/-!
Shallow embedding of the Otaguessr location-estimation engine:
the guess validator, the guess store (append, retrieval, backup timing,
location estimation) from main.py, the score-distance model and
trilateration front end from trilateration.py, and the bulk-import run
logic from read_excel_into_parquet.py.

Python dynamic values are modelled by the inductive `PyVal`; Python floats
are modelled as exact rationals where only comparisons and equalities
matter, and as real numbers where the analytic functions log and exp are
involved.  Fallible Python code (raise) is modelled with `Except`.
-/

/-- A Python runtime value as it occurs in guess rows: a string, a float,
an int, or None.  Float values are carried as exact rationals. -/
inductive PyVal where
  | pyStr (s : String)
  | pyFloat (x : ℚ)
  | pyInt (n : ℤ)
  | pyNone
deriving DecidableEq

/-- A raised Python exception, identified by class and message. -/
inductive PyError where
  | valueError (msg : String)
  | typeError (msg : String)
deriving DecidableEq

/-- The numeric value of a Python object when it is a float or an int
(`isinstance(x, (float, int))`), else `none`. -/
def pyNum : PyVal → Option ℚ
  | PyVal.pyFloat x => some x
  | PyVal.pyInt n => some (n : ℚ)
  | _ => none

/-- Python `v == q` for a numeric literal `q`: numeric cross-type equality,
`False` against strings and None. -/
def pyEqNum (v : PyVal) (q : ℚ) : Bool :=
  match pyNum v with
  | some x => x == q
  | none => false

/-- The check `isinstance(x, str) and x != "None"` on a guess row's first
field. -/
def isValidId (v : PyVal) : Bool :=
  match v with
  | PyVal.pyStr s => s != "None"
  | _ => false

/-- The check `isinstance(x, float) and lo <= x <= hi` on a coordinate
field: only floats qualify. -/
def isFloatInRange (v : PyVal) (lo hi : ℚ) : Bool :=
  match v with
  | PyVal.pyFloat x => decide (lo ≤ x) && decide (x ≤ hi)
  | _ => false

/-- The check `isinstance(x, (float, int)) and lo <= x <= hi` on the score
field: floats and ints both qualify. -/
def numInRange (v : PyVal) (lo hi : ℚ) : Bool :=
  match pyNum v with
  | some q => decide (lo ≤ q) && decide (q ≤ hi)
  | none => false

/-- main.py `valid_guess_row`, its guard conjunction in source order: the
row has length 4, its first field is a string other than `"None"`, its
second and third fields are floats within the latitude and longitude
bounds, and its fourth field is a float or int in [0, 30000]. -/
def valid_guess_row (row : List PyVal) : Bool :=
  row.length == 4 &&
  isValidId (row.getD 0 PyVal.pyNone) &&
  isFloatInRange (row.getD 1 PyVal.pyNone) (-90) 90 &&
  isFloatInRange (row.getD 2 PyVal.pyNone) (-180) 180 &&
  numInRange (row.getD 3 PyVal.pyNone) 0 30000

open Classical in
/-- Python `math.log`: raises `ValueError("math domain error")` on a
non-positive argument, otherwise the natural logarithm. -/
noncomputable def pylog (x : ℝ) : Except PyError ℝ :=
  if x ≤ 0 then Except.error (PyError.valueError "math domain error")
  else Except.ok (Real.log x)

-- (score = 0 falls through the range guard and raises inside the log)
open Classical in
/-- trilateration.py `score_to_distance` guard and formula:
rejects scores outside [0, 30000], then returns `log(score / 30000) / (-0.005)`. -/
noncomputable def score_to_distance (score : ℝ) : Except PyError ℝ :=
  if score < 0 ∨ score > 30000 then
    Except.error (PyError.valueError "score has to be between 0 and 30000")
  else
    (pylog (score / 30000)).map (fun l => l / (-0.005))

open Classical in
/-- trilateration.py `distance_to_score`: rejects negative distances, then
returns `30000 * exp(-0.005 * distance)`. -/
noncomputable def distance_to_score (distance : ℝ) : Except PyError ℝ :=
  if distance < 0 then
    Except.error (PyError.valueError "Distance has to be 0 or positive")
  else
    Except.ok (30000 * Real.exp (-0.005 * distance))

/-- Applying `score_to_distance` to a Python value, as `trilaterate` does
with `guess[3]`: a non-numeric value fails the `score < 0` comparison with
a TypeError, a numeric one is passed through as a real. -/
noncomputable def score_to_distance_py (v : PyVal) : Except PyError ℝ :=
  match pyNum v with
  | some q => score_to_distance (q : ℝ)
  | none => Except.error (PyError.typeError "unsupported operand comparison")

/-- The inputs with which `trilaterate` invokes `scipy.optimize.minimize`:
per-guess coordinates, the implied distances, and the initial candidate
location.  The optimizer is an external library; the embedding records the
call it would make, and its numeric output is outside the model. -/
structure MinimizeCall where
  locations : List (PyVal × PyVal)
  distances : List ℝ
  initial : PyVal × PyVal

/-- The conversion loop of `trilaterate`: for each guess, collect
`(guess[1], guess[2])` and `score_to_distance(guess[3])`, propagating the
first raised exception.  Indexing assumes 4-field rows, as guaranteed for
stored guesses by validation. -/
noncomputable def convert_guesses :
    List (List PyVal) → Except PyError (List (PyVal × PyVal) × List ℝ)
  | [] => Except.ok ([], [])
  | g :: rest =>
      match score_to_distance_py (g.getD 3 PyVal.pyNone) with
      | Except.error e => Except.error e
      | Except.ok d =>
          match convert_guesses rest with
          | Except.error e => Except.error e
          | Except.ok (ls, ds) =>
              Except.ok ((g.getD 1 PyVal.pyNone, g.getD 2 PyVal.pyNone) :: ls, d :: ds)

open Classical in
/-- Python `min` over `zip(distances, locations)` keyed on the first
component: the first pair with minimal distance, `none` on an empty list
(where Python `min` raises). -/
noncomputable def minByFirst : List (ℝ × (PyVal × PyVal)) → Option (ℝ × (PyVal × PyVal))
  | [] => none
  | x :: rest =>
      match minByFirst rest with
      | none => some x
      | some y => if x.1 ≤ y.1 then some x else some y

/-- trilateration.py `trilaterate`, up to the external optimizer: convert
every guess's score to an implied distance, pick the guess with the
smallest implied distance as the initial point, and record the resulting
`minimize` call. -/
noncomputable def trilaterate (guesses : List (List PyVal)) : Except PyError MinimizeCall :=
  match convert_guesses guesses with
  | Except.error e => Except.error e
  | Except.ok (locations, distances) =>
      match minByFirst (distances.zip locations) with
      | none => Except.error (PyError.valueError "min() arg is an empty sequence")
      | some m => Except.ok ⟨locations, distances, m.2⟩

/-- The state of a `Guesses` store: the flat table of guess rows (the
parquet-backed dataframe, write-through so memory and disk agree) and the
timestamps, in seconds, parsed from the snapshot files in the backup
directory. -/
structure GuessesState where
  df : List (List PyVal)
  backups : List ℤ
deriving DecidableEq

/-- main.py `Guesses.backup_interval`: `timedelta(minutes=10)`, in seconds. -/
def backup_interval : ℤ := 600

/-- main.py `Guesses.total_guesses`: `len(self.df)`. -/
def total_guesses (st : GuessesState) : Nat :=
  st.df.length

/-- main.py `Guesses.get_guesses`: the rows whose first column equals
`pic`, in storage order. -/
def get_guesses (st : GuessesState) (pic : String) : List (List PyVal) :=
  st.df.filter (fun row => row.getD 0 PyVal.pyNone == PyVal.pyStr pic)

/-- main.py `Guesses.time_to_create_backup`: true when no backup exists,
or when at least `backup_interval` has elapsed from the latest backup
timestamp to `now`. -/
def time_to_create_backup (now : ℤ) (st : GuessesState) : Bool :=
  match st.backups.max? with
  | some latest => decide (backup_interval ≤ now - latest)
  | none => true

/-- main.py `Guesses.add_guess` at wall-clock time `now`: raise on an
invalid row; otherwise append the row, persist, and take a timestamped
backup when `time_to_create_backup` says so.  The returned state is the
store after the call, also when it raised. -/
def add_guess (now : ℤ) (st : GuessesState) (guess : List PyVal) :
    Except PyError Unit × GuessesState :=
  if valid_guess_row guess then
    let st1 : GuessesState := { st with df := st.df ++ [guess] }
    if time_to_create_backup now st1 then
      (Except.ok (), { st1 with backups := st1.backups ++ [now] })
    else
      (Except.ok (), st1)
  else
    (Except.error (PyError.valueError "Invalid guess row"), st)

/-- Python `guess[3] == 30000`, the perfect-score test of the loop in
`estimate_true_location`. -/
def isPerfectGuess (g : List PyVal) : Bool :=
  pyEqNum (g.getD 3 PyVal.pyNone) 30000

/-- The outcome of `Guesses.estimate_true_location`: a directly returned
(lat, lon) pair from a perfect guess, a handing off to the trilateration
optimizer, the `None` result, or a raised exception. -/
inductive EstimateResult where
  | location (lat lon : PyVal)
  | solver (call : MinimizeCall)
  | noEstimate
  | raised (e : PyError)

/-- main.py `Guesses.estimate_true_location`: return the coordinates of
the first stored guess with score 30000 if any; otherwise trilaterate when
at least three guesses exist, else `None`. -/
noncomputable def estimate_true_location (st : GuessesState) (pic : String) : EstimateResult :=
  let guesses := get_guesses st pic
  match guesses.find? isPerfectGuess with
  | some g => EstimateResult.location (g.getD 1 PyVal.pyNone) (g.getD 2 PyVal.pyNone)
  | none =>
      if guesses.length ≥ 3 then
        match trilaterate guesses with
        | Except.ok call => EstimateResult.solver call
        | Except.error e => EstimateResult.raised e
      else
        EstimateResult.noEstimate

/-- read_excel_into_parquet.py `valid_run`: the set of first elements of
the rows has exactly one member (`len(set(firsts)) == 1`). -/
def valid_run (rows : List (List PyVal)) : Bool :=
  (rows.map (fun r => r.getD 0 PyVal.pyNone)).dedup.length == 1

/-- The row loop of `add_guesses_to_df`: grow `current_run` with each
validator-passing row, close it at each failing row, keep closed runs that
pass `valid_run`, and close the final run at the end of input. -/
def collect_runs (current : List (List PyVal)) :
    List (List PyVal) → List (List (List PyVal))
  | [] => if valid_run current then [current] else []
  | row :: rest =>
      if valid_guess_row row then
        collect_runs (current ++ [row]) rest
      else
        (if valid_run current then [current] else []) ++ collect_runs [] rest

/-- read_excel_into_parquet.py `add_guesses_to_df`: the input dataframe
followed by the concatenation of the accepted runs. -/
def add_guesses_to_df (df : List (List PyVal)) (rows : List (List PyVal)) :
    List (List PyVal) :=
  df ++ (collect_runs [] rows).flatten

/-- Stated from the claim's words, for comparison with `valid_run` on the
code side: a run is accepted when it is non-empty and every row in it
carries the same target id (first field) as the run's first row. -/
def same_target_run (rows : List (List PyVal)) : Bool :=
  match rows with
  | [] => false
  | r0 :: _ =>
      rows.all (fun r => r.getD 0 PyVal.pyNone == r0.getD 0 PyVal.pyNone)

/-- Stated from the claim's words: the rows accepted by bulk import are
those of the maximal runs of consecutive validator-passing rows (runs
delimited exactly by validator-failing rows) that are target-homogeneous. -/
def claimed_bulk_accept (rows : List (List PyVal)) : List (List PyVal) :=
  ((rows.splitOnP (fun r => !valid_guess_row r)).filter same_target_run).flatten

/-- Stated from the claim's words, for comparison with `valid_guess_row`:
exactly four fields; field 1 a non-empty string other than `"None"`;
field 2 a real number in [-90, 90]; field 3 a real number in [-180, 180];
field 4 a real number in [0, 30000]. -/
def claimed_valid_guess_row (row : List PyVal) : Bool :=
  row.length == 4 &&
  (match row.getD 0 PyVal.pyNone with
   | PyVal.pyStr s => s != "" && s != "None"
   | _ => false) &&
  numInRange (row.getD 1 PyVal.pyNone) (-90) 90 &&
  numInRange (row.getD 2 PyVal.pyNone) (-180) 180 &&
  numInRange (row.getD 3 PyVal.pyNone) 0 30000

/-- The id check succeeds exactly on strings other than `"None"`. -/
theorem isValidId_iff (v : PyVal) :
    isValidId v = true ↔ ∃ s : String, v = PyVal.pyStr s ∧ s ≠ "None" := by
  cases v <;> simp [isValidId]

/-- The coordinate check succeeds exactly on floats within the bounds. -/
theorem isFloatInRange_iff (v : PyVal) (lo hi : ℚ) :
    isFloatInRange v lo hi = true ↔
      ∃ x : ℚ, v = PyVal.pyFloat x ∧ lo ≤ x ∧ x ≤ hi := by
  cases v <;> simp [isFloatInRange]

/-- The score check succeeds exactly on numeric values within the bounds. -/
theorem numInRange_iff (v : PyVal) (lo hi : ℚ) :
    numInRange v lo hi = true ↔
      ∃ q : ℚ, pyNum v = some q ∧ lo ≤ q ∧ q ≤ hi := by
  cases v <;> simp [numInRange, pyNum]

/-- C3 counterexample: the row `("", 0.0, 0.0, 0.0)` is accepted by the
code's validator although its first field is the empty string, which the
claimed contract rejects; the claimed if-and-only-if fails here. -/
theorem valid_guess_row_empty_id_counterexample :
    valid_guess_row [PyVal.pyStr "", PyVal.pyFloat 0, PyVal.pyFloat 0, PyVal.pyFloat 0] = true ∧
    claimed_valid_guess_row
      [PyVal.pyStr "", PyVal.pyFloat 0, PyVal.pyFloat 0, PyVal.pyFloat 0] = false := by
  decide

/-- Field-level characterization of `valid_guess_row`, shared by the
claims that reason about valid stored rows. -/
theorem valid_guess_row_fields (row : List PyVal) :
    valid_guess_row row = true ↔
      (row.length = 4 ∧
       (∃ s : String, row.getD 0 PyVal.pyNone = PyVal.pyStr s ∧ s ≠ "None") ∧
       (∃ la : ℚ, row.getD 1 PyVal.pyNone = PyVal.pyFloat la ∧ -90 ≤ la ∧ la ≤ 90) ∧
       (∃ lo : ℚ, row.getD 2 PyVal.pyNone = PyVal.pyFloat lo ∧ -180 ≤ lo ∧ lo ≤ 180) ∧
       (∃ sc : ℚ, pyNum (row.getD 3 PyVal.pyNone) = some sc ∧ 0 ≤ sc ∧ sc ≤ 30000)) := by
  rw [valid_guess_row]
  simp only [Bool.and_eq_true, beq_iff_eq, isValidId_iff, isFloatInRange_iff, numInRange_iff,
    and_assoc]

/-- C3 amended: the validator returns true iff the candidate has exactly
four fields, field 1 is a string other than the literal `"None"` (possibly
empty), fields 2 and 3 are floats within the latitude and longitude bounds
(an int is rejected there), and field 4 is a float or int in [0, 30000].
Being a pure function of its argument, it has no side effects. -/
theorem valid_guess_row_characterization (row : List PyVal) :
    valid_guess_row row = true ↔
      (row.length = 4 ∧
       (∃ s : String, row.getD 0 PyVal.pyNone = PyVal.pyStr s ∧ s ≠ "None") ∧
       (∃ la : ℚ, row.getD 1 PyVal.pyNone = PyVal.pyFloat la ∧ -90 ≤ la ∧ la ≤ 90) ∧
       (∃ lo : ℚ, row.getD 2 PyVal.pyNone = PyVal.pyFloat lo ∧ -180 ≤ lo ∧ lo ≤ 180) ∧
       (∃ sc : ℚ, pyNum (row.getD 3 PyVal.pyNone) = some sc ∧ 0 ≤ sc ∧ sc ≤ 30000)) :=
  valid_guess_row_fields row

/-- C1: for every score s with 0 < s ≤ 30000,
`distance_to_score (score_to_distance s)` succeeds and returns s: the two
functions are exact analytic inverses on that range, with the undefined
boundary s = 0 excluded. -/
theorem score_roundtrip (s : ℝ) (h1 : 0 < s) (h2 : s ≤ 30000) :
    (score_to_distance s).bind distance_to_score = Except.ok s := by
  have hs30 : (0:ℝ) < s / 30000 := by positivity
  have hle : s / 30000 ≤ 1 := by
    rw [div_le_one (by norm_num : (0:ℝ) < 30000)]
    exact h2
  have hlog : Real.log (s / 30000) ≤ 0 := Real.log_nonpos (le_of_lt hs30) hle
  have hd : 0 ≤ Real.log (s / 30000) / (-0.005) := by
    rw [div_nonneg_iff]
    right
    constructor
    · exact hlog
    · norm_num
  unfold score_to_distance
  rw [if_neg (by push_neg; constructor <;> linarith)]
  unfold pylog
  rw [if_neg (by linarith)]
  show distance_to_score (Real.log (s / 30000) / (-0.005)) = Except.ok s
  unfold distance_to_score
  rw [if_neg (by linarith)]
  have harg : (-0.005 : ℝ) * (Real.log (s / 30000) / (-0.005)) = Real.log (s / 30000) := by
    rw [mul_comm, div_mul_cancel₀]
    norm_num
  rw [harg, Real.exp_log hs30]
  norm_num
  rw [mul_comm, div_mul_cancel₀]
  norm_num

/-- C1 witness at s = 30000. -/
theorem score_roundtrip_witness :
    (score_to_distance 30000).bind distance_to_score = Except.ok 30000 :=
  score_roundtrip 30000 (by norm_num) (by norm_num)

/-- Evaluating `score_to_distance` at score 0: the range guard passes, and `log(0)`
raises the math domain error. -/
theorem score_to_distance_zero :
    score_to_distance 0 = Except.error (PyError.valueError "math domain error") := by
  unfold score_to_distance
  rw [if_neg (by norm_num)]
  unfold pylog
  rw [if_pos (by norm_num)]
  rfl

/-- Evaluating `score_to_distance` on a strictly positive score within the bound:
both guards pass and the implied distance is returned. -/
theorem score_to_distance_pos (s : ℝ) (h1 : 0 < s) (h2 : s ≤ 30000) :
    score_to_distance s = Except.ok (Real.log (s / 30000) / (-0.005)) := by
  unfold score_to_distance
  rw [if_neg (by push_neg; constructor <;> linarith)]
  unfold pylog
  rw [if_neg (by push_neg; positivity)]
  rfl

/-- C4 counterexample: the score 0 lies inside the claimed valid domain
(not score < 0, not score > 30000), yet `score_to_distance 0` raises: the
range guard passes and `log(0)` fails with a math domain error. -/
theorem score_to_distance_zero_raises :
    ¬ ((0:ℝ) < 0 ∨ (0:ℝ) > 30000) ∧
    score_to_distance 0 = Except.error (PyError.valueError "math domain error") := by
  constructor
  · push_neg
    norm_num
  · exact score_to_distance_zero

/-- C4 amended: `score_to_distance` fails exactly when score ≤ 0 or
score > 30000 (at 0 via the logarithm's domain error rather than the
explicit range check), and `distance_to_score` fails exactly when
distance < 0; for arguments strictly inside those domains each returns a
value without failing. -/
theorem score_distance_domain_characterization (s d : ℝ) :
    ((∃ e, score_to_distance s = Except.error e) ↔ s ≤ 0 ∨ s > 30000) ∧
    ((∃ e, distance_to_score d = Except.error e) ↔ d < 0) := by
  constructor
  · unfold score_to_distance pylog
    by_cases hout : s < 0 ∨ s > 30000
    · rw [if_pos hout]
      constructor
      · intro _
        rcases hout with h | h
        · exact Or.inl (le_of_lt h)
        · exact Or.inr h
      · intro _
        exact ⟨_, rfl⟩
    · rw [if_neg hout]
      push_neg at hout
      by_cases hzero : s ≤ 0
      · have hq : s / 30000 ≤ 0 := by
          apply div_nonpos_of_nonpos_of_nonneg hzero
          norm_num
        rw [if_pos hq]
        constructor
        · intro _
          exact Or.inl hzero
        · intro _
          exact ⟨_, rfl⟩
      · push_neg at hzero
        have hq : ¬ (s / 30000 ≤ 0) := by
          push_neg
          positivity
        rw [if_neg hq]
        constructor
        · rintro ⟨e, he⟩
          exact Except.noConfusion he
        · rintro (h | h) <;> linarith [hout.2]
  · unfold distance_to_score
    by_cases hneg : d < 0
    · rw [if_pos hneg]
      constructor
      · intro _
        exact hneg
      · intro _
        exact ⟨_, rfl⟩
    · rw [if_neg hneg]
      constructor
      · rintro ⟨e, he⟩
        exact Except.noConfusion he
      · intro h
        exact absurd h hneg

/-- The function `List.find?` returns the head of the suffix after a prefix on which the
predicate fails everywhere. -/
theorem find?_first {α : Type} (p : α → Bool) (l1 l2 : List α) (g : α)
    (hpre : ∀ x ∈ l1, p x = false) (hg : p g = true) :
    (l1 ++ g :: l2).find? p = some g := by
  induction l1 with
  | nil =>
      simpa using List.find?_cons_of_pos l2 hg
  | cons a as ih =>
      have ha : ¬ p a = true := by
        rw [hpre a (by simp)]
        exact Bool.false_ne_true
      rw [List.cons_append, List.find?_cons_of_neg _ ha]
      exact ih (fun x hx => hpre x (by simp [hx]))

/-- C2: whenever the stored guess sequence for a target splits as a
prefix without perfect scores, a guess with score 30000, and any suffix,
`estimate_true_location` returns exactly that guess's (lat, lon): the
first perfect guess in storage order wins, regardless of the other
guesses and of the total count. -/
theorem estimate_perfect_short_circuit (st : GuessesState) (pic : String)
    (l1 l2 : List (List PyVal)) (g : List PyVal)
    (hsplit : get_guesses st pic = l1 ++ g :: l2)
    (hg : isPerfectGuess g = true)
    (hpre : ∀ x ∈ l1, isPerfectGuess x = false) :
    estimate_true_location st pic =
      EstimateResult.location (g.getD 1 PyVal.pyNone) (g.getD 2 PyVal.pyNone) := by
  simp only [estimate_true_location]
  rw [hsplit, find?_first _ _ _ _ hpre hg]

/-- C2 witness: a perfect guess sandwiched between other guesses for the
same target is returned as-is. -/
theorem estimate_perfect_short_circuit_witness :
    estimate_true_location
      ⟨[[PyVal.pyStr "pic1", PyVal.pyFloat 50, PyVal.pyFloat 10, PyVal.pyInt 100],
        [PyVal.pyStr "pic1", PyVal.pyFloat 60, PyVal.pyFloat 24, PyVal.pyInt 30000],
        [PyVal.pyStr "pic2", PyVal.pyFloat 1, PyVal.pyFloat 2, PyVal.pyInt 5],
        [PyVal.pyStr "pic1", PyVal.pyFloat 61, PyVal.pyFloat 25, PyVal.pyInt 30000]], []⟩
      "pic1" =
    EstimateResult.location (PyVal.pyFloat 60) (PyVal.pyFloat 24) :=
  estimate_perfect_short_circuit _ "pic1"
    [[PyVal.pyStr "pic1", PyVal.pyFloat 50, PyVal.pyFloat 10, PyVal.pyInt 100]]
    [[PyVal.pyStr "pic1", PyVal.pyFloat 61, PyVal.pyFloat 25, PyVal.pyInt 30000]]
    [PyVal.pyStr "pic1", PyVal.pyFloat 60, PyVal.pyFloat 24, PyVal.pyInt 30000]
    (by decide) (by decide) (by decide)

/-- C5: when no stored guess for the target has score 30000 and fewer
than three guesses exist, `estimate_true_location` returns the absent
result, not an error. -/
theorem estimate_insufficient_data (st : GuessesState) (pic : String)
    (h1 : ∀ g ∈ get_guesses st pic, isPerfectGuess g = false)
    (h2 : (get_guesses st pic).length < 3) :
    estimate_true_location st pic = EstimateResult.noEstimate := by
  simp only [estimate_true_location]
  rw [List.find?_eq_none.mpr (fun x hx => by rw [h1 x hx]; exact Bool.false_ne_true)]
  rw [if_neg (by omega)]

/-- C5 witness: two non-perfect guesses yield `None`. -/
theorem estimate_insufficient_data_witness :
    estimate_true_location
      ⟨[[PyVal.pyStr "pic1", PyVal.pyFloat 50, PyVal.pyFloat 10, PyVal.pyInt 100],
        [PyVal.pyStr "pic1", PyVal.pyFloat 51, PyVal.pyFloat 11, PyVal.pyInt 200]], []⟩
      "pic1" =
    EstimateResult.noEstimate :=
  estimate_insufficient_data _ "pic1" (by decide) (by decide)

/-- C6: an invalid candidate guess makes `add_guess` raise, and the store
state after the call is exactly the state before it: `get_guesses` is
unchanged for every target, `total_guesses` is unchanged, and no backup is
added. -/
theorem add_guess_invalid_unchanged (now : ℤ) (st : GuessesState) (guess : List PyVal)
    (h : valid_guess_row guess = false) :
    (add_guess now st guess).1 = Except.error (PyError.valueError "Invalid guess row") ∧
    (add_guess now st guess).2 = st ∧
    (∀ pic : String, get_guesses (add_guess now st guess).2 pic = get_guesses st pic) ∧
    total_guesses (add_guess now st guess).2 = total_guesses st := by
  have hcall : add_guess now st guess =
      (Except.error (PyError.valueError "Invalid guess row"), st) := by
    unfold add_guess
    rw [if_neg (by rw [h]; exact Bool.false_ne_true)]
  rw [hcall]
  exact ⟨rfl, rfl, fun _ => rfl, rfl⟩

/-- C6 witness: a row with latitude 91 is rejected and a one-row store is
untouched. -/
theorem add_guess_invalid_unchanged_witness :
    (add_guess 0
        ⟨[[PyVal.pyStr "pic1", PyVal.pyFloat 50, PyVal.pyFloat 10, PyVal.pyInt 100]], []⟩
        [PyVal.pyStr "pic1", PyVal.pyFloat 91, PyVal.pyFloat 10, PyVal.pyInt 100]).1 =
      Except.error (PyError.valueError "Invalid guess row") ∧
    (add_guess 0
        ⟨[[PyVal.pyStr "pic1", PyVal.pyFloat 50, PyVal.pyFloat 10, PyVal.pyInt 100]], []⟩
        [PyVal.pyStr "pic1", PyVal.pyFloat 91, PyVal.pyFloat 10, PyVal.pyInt 100]).2 =
      ⟨[[PyVal.pyStr "pic1", PyVal.pyFloat 50, PyVal.pyFloat 10, PyVal.pyInt 100]], []⟩ ∧
    (∀ pic : String,
      get_guesses (add_guess 0
        ⟨[[PyVal.pyStr "pic1", PyVal.pyFloat 50, PyVal.pyFloat 10, PyVal.pyInt 100]], []⟩
        [PyVal.pyStr "pic1", PyVal.pyFloat 91, PyVal.pyFloat 10, PyVal.pyInt 100]).2 pic =
      get_guesses
        ⟨[[PyVal.pyStr "pic1", PyVal.pyFloat 50, PyVal.pyFloat 10, PyVal.pyInt 100]], []⟩ pic) ∧
    total_guesses (add_guess 0
        ⟨[[PyVal.pyStr "pic1", PyVal.pyFloat 50, PyVal.pyFloat 10, PyVal.pyInt 100]], []⟩
        [PyVal.pyStr "pic1", PyVal.pyFloat 91, PyVal.pyFloat 10, PyVal.pyInt 100]).2 =
      total_guesses
        ⟨[[PyVal.pyStr "pic1", PyVal.pyFloat 50, PyVal.pyFloat 10, PyVal.pyInt 100]], []⟩ :=
  add_guess_invalid_unchanged 0 _ _ (by decide)

/-- The dataframe after a successful `add_guess` is the old dataframe with
the new row appended, whichever way the backup branch goes. -/
theorem add_guess_df (now : ℤ) (st : GuessesState) (guess : List PyVal)
    (hv : valid_guess_row guess = true) :
    (add_guess now st guess).1 = Except.ok () ∧
    (add_guess now st guess).2.df = st.df ++ [guess] := by
  unfold add_guess
  rw [if_pos hv]
  by_cases hb : time_to_create_backup now { st with df := st.df ++ [guess] }
  · rw [if_pos hb]
    exact ⟨rfl, rfl⟩
  · rw [if_neg hb]
    exact ⟨rfl, rfl⟩

/-- C10: every successful `add_guess` appends exactly one record: the call
returns normally, the total count grows by one, the appended guess's
target gains exactly that guess at the end of its sequence, and every
other target's sequence is untouched. -/
theorem add_guess_appends_one (now : ℤ) (st : GuessesState) (guess : List PyVal) (s : String)
    (hv : valid_guess_row guess = true)
    (hs : guess.getD 0 PyVal.pyNone = PyVal.pyStr s) :
    (add_guess now st guess).1 = Except.ok () ∧
    total_guesses (add_guess now st guess).2 = total_guesses st + 1 ∧
    get_guesses (add_guess now st guess).2 s = get_guesses st s ++ [guess] ∧
    (∀ pic : String, pic ≠ s →
      get_guesses (add_guess now st guess).2 pic = get_guesses st pic) := by
  obtain ⟨hok, hdf⟩ := add_guess_df now st guess hv
  have hs' : guess[0]?.getD PyVal.pyNone = PyVal.pyStr s := by
    rw [← List.getD_eq_getElem?_getD]
    exact hs
  refine ⟨hok, ?_, ?_, ?_⟩
  · simp [total_guesses, hdf]
  · simp only [get_guesses, hdf, List.filter_append]
    simp [hs']
  · intro pic hpic
    have hne : (guess[0]?.getD PyVal.pyNone == PyVal.pyStr pic) = false := by
      rw [hs']
      simp
      exact fun h => hpic h.symm
    simp [get_guesses, hdf, List.filter_append, hne]

/-- C10 witness: appending a valid guess to a two-row store grows only its
own target's sequence. -/
theorem add_guess_appends_one_witness :
    (add_guess 0
        ⟨[[PyVal.pyStr "pic1", PyVal.pyFloat 50, PyVal.pyFloat 10, PyVal.pyInt 100],
          [PyVal.pyStr "pic2", PyVal.pyFloat 1, PyVal.pyFloat 2, PyVal.pyInt 5]], []⟩
        [PyVal.pyStr "pic1", PyVal.pyFloat 51, PyVal.pyFloat 11, PyVal.pyInt 200]).1 =
      Except.ok () ∧
    total_guesses (add_guess 0
        ⟨[[PyVal.pyStr "pic1", PyVal.pyFloat 50, PyVal.pyFloat 10, PyVal.pyInt 100],
          [PyVal.pyStr "pic2", PyVal.pyFloat 1, PyVal.pyFloat 2, PyVal.pyInt 5]], []⟩
        [PyVal.pyStr "pic1", PyVal.pyFloat 51, PyVal.pyFloat 11, PyVal.pyInt 200]).2 =
      total_guesses
        ⟨[[PyVal.pyStr "pic1", PyVal.pyFloat 50, PyVal.pyFloat 10, PyVal.pyInt 100],
          [PyVal.pyStr "pic2", PyVal.pyFloat 1, PyVal.pyFloat 2, PyVal.pyInt 5]], []⟩ + 1 ∧
    get_guesses (add_guess 0
        ⟨[[PyVal.pyStr "pic1", PyVal.pyFloat 50, PyVal.pyFloat 10, PyVal.pyInt 100],
          [PyVal.pyStr "pic2", PyVal.pyFloat 1, PyVal.pyFloat 2, PyVal.pyInt 5]], []⟩
        [PyVal.pyStr "pic1", PyVal.pyFloat 51, PyVal.pyFloat 11, PyVal.pyInt 200]).2 "pic1" =
      get_guesses
        ⟨[[PyVal.pyStr "pic1", PyVal.pyFloat 50, PyVal.pyFloat 10, PyVal.pyInt 100],
          [PyVal.pyStr "pic2", PyVal.pyFloat 1, PyVal.pyFloat 2, PyVal.pyInt 5]], []⟩ "pic1" ++
        [[PyVal.pyStr "pic1", PyVal.pyFloat 51, PyVal.pyFloat 11, PyVal.pyInt 200]] ∧
    (∀ pic : String, pic ≠ "pic1" →
      get_guesses (add_guess 0
        ⟨[[PyVal.pyStr "pic1", PyVal.pyFloat 50, PyVal.pyFloat 10, PyVal.pyInt 100],
          [PyVal.pyStr "pic2", PyVal.pyFloat 1, PyVal.pyFloat 2, PyVal.pyInt 5]], []⟩
        [PyVal.pyStr "pic1", PyVal.pyFloat 51, PyVal.pyFloat 11, PyVal.pyInt 200]).2 pic =
      get_guesses
        ⟨[[PyVal.pyStr "pic1", PyVal.pyFloat 50, PyVal.pyFloat 10, PyVal.pyInt 100],
          [PyVal.pyStr "pic2", PyVal.pyFloat 1, PyVal.pyFloat 2, PyVal.pyInt 5]], []⟩ pic) :=
  add_guess_appends_one 0 _ _ "pic1" (by decide) (by decide)

/-- C7: on a successful `add_guess` at time `now`, a backup timestamped
`now` is appended exactly when no backup exists yet, or when at least the
10-minute interval has elapsed since the latest existing backup; within
less than the interval of the latest backup the backup list is unchanged.
Across repeated calls this yields at most one new snapshot per interval
and exactly one more on the first call after the interval elapses. -/
theorem add_guess_backup_iff (now : ℤ) (st : GuessesState) (guess : List PyVal)
    (hv : valid_guess_row guess = true) :
    (st.backups = [] →
      (add_guess now st guess).2.backups = st.backups ++ [now]) ∧
    (∀ m : ℤ, st.backups.max? = some m →
      (backup_interval ≤ now - m →
        (add_guess now st guess).2.backups = st.backups ++ [now]) ∧
      (now - m < backup_interval →
        (add_guess now st guess).2.backups = st.backups)) := by
  unfold add_guess
  rw [if_pos hv]
  constructor
  · intro hnil
    have hb : time_to_create_backup now { st with df := st.df ++ [guess] } = true := by
      unfold time_to_create_backup
      rw [show ({ st with df := st.df ++ [guess] } : GuessesState).backups = st.backups from rfl,
        hnil]
      rfl
    rw [if_pos hb]
  · intro m hm
    constructor
    · intro helapsed
      have hb : time_to_create_backup now { st with df := st.df ++ [guess] } = true := by
        unfold time_to_create_backup
        rw [show ({ st with df := st.df ++ [guess] } : GuessesState).backups = st.backups from rfl,
          hm]
        simpa using helapsed
      rw [if_pos hb]
    · intro hrecent
      have hb : time_to_create_backup now { st with df := st.df ++ [guess] } = false := by
        unfold time_to_create_backup
        rw [show ({ st with df := st.df ++ [guess] } : GuessesState).backups = st.backups from rfl,
          hm]
        simpa using by omega
      rw [if_neg (by rw [hb]; exact Bool.false_ne_true)]

/-- C7 witness: with one backup 700 seconds old a new snapshot is taken,
and with one 300 seconds old it is not. -/
theorem add_guess_backup_iff_witness :
    ((⟨[], [1000]⟩ : GuessesState).backups = [] →
      (add_guess 1700 ⟨[], [1000]⟩
        [PyVal.pyStr "pic1", PyVal.pyFloat 51, PyVal.pyFloat 11, PyVal.pyInt 200]).2.backups =
        (⟨[], [1000]⟩ : GuessesState).backups ++ [1700]) ∧
    (∀ m : ℤ, (⟨[], [1000]⟩ : GuessesState).backups.max? = some m →
      (backup_interval ≤ 1700 - m →
        (add_guess 1700 ⟨[], [1000]⟩
          [PyVal.pyStr "pic1", PyVal.pyFloat 51, PyVal.pyFloat 11, PyVal.pyInt 200]).2.backups =
          (⟨[], [1000]⟩ : GuessesState).backups ++ [1700]) ∧
      (1700 - m < backup_interval →
        (add_guess 1700 ⟨[], [1000]⟩
          [PyVal.pyStr "pic1", PyVal.pyFloat 51, PyVal.pyFloat 11, PyVal.pyInt 200]).2.backups =
          (⟨[], [1000]⟩ : GuessesState).backups)) :=
  add_guess_backup_iff 1700 ⟨[], [1000]⟩
    [PyVal.pyStr "pic1", PyVal.pyFloat 51, PyVal.pyFloat 11, PyVal.pyInt 200] (by decide)

/-- Deduplicating a replicated element gives that single element. -/
theorem dedup_replicate_succ {α : Type} [DecidableEq α] (a : α) (n : Nat) :
    (List.replicate (n + 1) a).dedup = [a] := by
  induction n with
  | zero => rfl
  | succ k ih =>
      rw [List.replicate_succ, List.dedup_cons_of_mem (by simp), ih]

/-- The deduplicated list of a nonempty list has length one exactly when
every element equals the head. -/
theorem dedup_length_one_cons {α : Type} [DecidableEq α] (a : α) (l : List α) :
    (a :: l).dedup.length = 1 ↔ ∀ x ∈ l, x = a := by
  constructor
  · intro h
    obtain ⟨b, hb⟩ := List.length_eq_one.mp h
    have hab : a = b := by
      have : a ∈ (a :: l).dedup := List.mem_dedup.mpr (by simp)
      rw [hb] at this
      simpa using this
    intro x hx
    have : x ∈ (a :: l).dedup := List.mem_dedup.mpr (by simp [hx])
    rw [hb] at this
    simp at this
    rw [this, hab]
  · intro hall
    have hrep : a :: l = List.replicate (l.length + 1) a := by
      rw [List.replicate_succ]
      congr 1
      exact List.eq_replicate_of_mem hall
    rw [hrep, dedup_replicate_succ]
    rfl

/-- The code's `valid_run` agrees with the claim's acceptance condition:
nonempty and target-homogeneous. -/
theorem valid_run_eq_same_target (rows : List (List PyVal)) :
    valid_run rows = same_target_run rows := by
  rcases rows with _ | ⟨r0, rest⟩
  · rfl
  · rw [Bool.eq_iff_iff]
    unfold valid_run same_target_run
    rw [List.map_cons]
    simp only [beq_iff_eq, List.all_cons, List.all_eq_true, Bool.and_eq_true, true_and,
      dedup_length_one_cons]
    constructor
    · intro h r hr
      exact h _ (List.mem_map_of_mem _ hr)
    · intro h x hx
      obtain ⟨r, hr, rfl⟩ := List.mem_map.mp hx
      exact h r hr

/-- The accumulator loop `collect_runs` computes the claim-side segmentation: split the rows at
validator-failing rows, prepend the carried-over run to the first segment,
and keep the target-homogeneous nonempty segments. -/
theorem collect_runs_spec (rows : List (List PyVal)) (current : List (List PyVal)) :
    collect_runs current rows =
      ((rows.splitOnP (fun r => !valid_guess_row r)).modifyHead
        (fun run => current ++ run)).filter same_target_run := by
  induction rows generalizing current with
  | nil =>
      rw [List.splitOnP_nil]
      show (if valid_run current then [current] else []) =
        ([current ++ []].filter same_target_run)
      rw [List.append_nil, valid_run_eq_same_target]
      by_cases h : same_target_run current
      · simp [h, List.filter]
      · simp [h, List.filter]
  | cons row rest ih =>
      by_cases hval : valid_guess_row row
      · show (if valid_guess_row row then collect_runs (current ++ [row]) rest
            else (if valid_run current then [current] else []) ++ collect_runs [] rest) = _
        rw [if_pos hval, ih]
        rw [List.splitOnP_cons, if_neg (by simp [hval])]
        rcases hS : rest.splitOnP (fun r => !valid_guess_row r) with _ | ⟨s0, S⟩
        · exact absurd hS (List.splitOnP_ne_nil _ _)
        · simp [List.modifyHead]
      · have hval' : valid_guess_row row = false := by
          rw [← Bool.not_eq_true]
          exact hval
        have hmod : ∀ L : List (List (List PyVal)),
            L.modifyHead (fun run => [] ++ run) = L := by
          intro L
          cases L <;> simp [List.modifyHead]
        have hmod2 : (([] : List (List PyVal)) ::
              rest.splitOnP (fun r => !valid_guess_row r)).modifyHead
              (fun run => current ++ run) =
            current :: rest.splitOnP (fun r => !valid_guess_row r) := by
          simp [List.modifyHead]
        rw [List.splitOnP_cons, hval']
        rw [if_pos (by rfl)]
        rw [hmod2]
        show (if valid_guess_row row then collect_runs (current ++ [row]) rest
            else (if valid_run current then [current] else []) ++ collect_runs [] rest) =
          List.filter same_target_run
            (current :: rest.splitOnP (fun r => !valid_guess_row r))
        rw [if_neg hval, ih [], hmod, List.filter_cons, valid_run_eq_same_target]
        by_cases h : same_target_run current
        · simp [h]
        · simp [h]

/-- C8: bulk import appends to the dataframe exactly the rows of the
maximal runs of consecutive validator-passing rows (delimited only by
validator-failing rows) in which every row carries the same target id; a
run mixing two target ids contributes none of its rows. -/
theorem bulk_import_accepts_same_target_runs (df rows : List (List PyVal)) :
    add_guesses_to_df df rows = df ++ claimed_bulk_accept rows := by
  unfold add_guesses_to_df claimed_bulk_accept
  rw [collect_runs_spec]
  rcases hS : rows.splitOnP (fun r => !valid_guess_row r) with _ | ⟨s0, S⟩
  · exact absurd hS (List.splitOnP_ne_nil _ _)
  · simp [List.modifyHead]

/-- When every guess is validator-passing and some guess's score is
exactly 0, the conversion loop of `trilaterate` raises the math domain
error of `log(0)`. -/
theorem convert_guesses_raises_zero (gs : List (List PyVal))
    (hvalid : ∀ g ∈ gs, valid_guess_row g = true)
    (hzero : ∃ g ∈ gs, pyNum (g.getD 3 PyVal.pyNone) = some 0) :
    convert_guesses gs = Except.error (PyError.valueError "math domain error") := by
  induction gs with
  | nil =>
      obtain ⟨g, hg, -⟩ := hzero
      exact absurd hg (List.not_mem_nil g)
  | cons g rest ih =>
      obtain ⟨-, -, -, -, sc, hsc, hsc0, hsc30⟩ :=
        (valid_guess_row_fields g).mp (hvalid g (by simp))
      by_cases hq0 : sc = 0
      · have hcast : ((sc : ℚ) : ℝ) = 0 := by
          rw [hq0]
          exact Rat.cast_zero
        simp only [convert_guesses, score_to_distance_py, hsc, hcast, score_to_distance_zero]
      · have hlt : (0:ℝ) < (sc : ℝ) := by
          have h := lt_of_le_of_ne hsc0 (Ne.symm hq0)
          exact_mod_cast h
        have hle : ((sc : ℚ) : ℝ) ≤ 30000 := by exact_mod_cast hsc30
        have hrest : ∃ g' ∈ rest, pyNum (g'.getD 3 PyVal.pyNone) = some 0 := by
          obtain ⟨g', hg', hz⟩ := hzero
          rcases List.mem_cons.mp hg' with rfl | hmem
          · rw [hsc] at hz
            injection hz with hz'
            exact absurd hz' hq0
          · exact ⟨g', hmem, hz⟩
        have hihr := ih (fun x hx => hvalid x (by simp [hx])) hrest
        simp only [convert_guesses, score_to_distance_py, hsc,
          score_to_distance_pos _ hlt hle, hihr]

/-- C9: a store of validator-passing guesses on which location estimation
raises: whenever a target has at least three guesses, none perfect, and at
least one with score exactly 0, the solver's score-to-distance conversion
is applied to 0 and the math domain error escapes: estimation is not total
over valid store contents. -/
theorem estimate_raises_on_zero_score (st : GuessesState) (pic : String)
    (hvalid : ∀ g ∈ get_guesses st pic, valid_guess_row g = true)
    (hcount : 3 ≤ (get_guesses st pic).length)
    (hnoperfect : ∀ g ∈ get_guesses st pic, isPerfectGuess g = false)
    (hzero : ∃ g ∈ get_guesses st pic, pyNum (g.getD 3 PyVal.pyNone) = some 0) :
    estimate_true_location st pic =
      EstimateResult.raised (PyError.valueError "math domain error") := by
  simp only [estimate_true_location]
  rw [List.find?_eq_none.mpr
    (fun x hx => by rw [hnoperfect x hx]; exact Bool.false_ne_true)]
  rw [if_pos hcount]
  unfold trilaterate
  rw [convert_guesses_raises_zero _ hvalid hzero]

/-- C9 witness: three valid guesses for one target, none perfect, one with
score 0.0, make the estimator raise. -/
theorem estimate_raises_on_zero_score_witness :
    estimate_true_location
      ⟨[[PyVal.pyStr "p", PyVal.pyFloat 10, PyVal.pyFloat 10, PyVal.pyFloat 100],
        [PyVal.pyStr "p", PyVal.pyFloat 11, PyVal.pyFloat 11, PyVal.pyFloat 0],
        [PyVal.pyStr "p", PyVal.pyFloat 12, PyVal.pyFloat 12, PyVal.pyFloat 50]], []⟩
      "p" =
    EstimateResult.raised (PyError.valueError "math domain error") :=
  estimate_raises_on_zero_score _ "p" (by decide) (by decide) (by decide) (by decide)

